import Mathlib

/-!
Verification of the resilient fetch-and-cache pipeline of the `househunters`
repository against its natural-language specification.

The Python sources are shallowly embedded as executable Lean definitions:

* `app/crimegrade_search.py` — `_make_brightdata_request` (retry policy over a
  stream of transport outcomes), `process_zipcodes` (fan-out work pool with
  resume, periodic checkpointing, and a failure log).
* `app/zillow.py` — `search_properties` (pagination loop).
* `app/details.py` — `_init_cache`, `_cache_get`/`_cache_set`,
  `get_property_details_by_zpid`, `_get_nested_value`.

Effectful parts (HTTP transport, `random.uniform` jitter, `time.sleep`, file
I/O, thread-pool completion order) are made explicit parameters: transport
outcomes and jitter are input streams, sleeps are recorded as a trace, file
writes succeed or fail according to boolean streams, and the order in which
futures complete is an explicit list.
-/

/-! ## Association-list model of Python `dict` (string keys) -/

/-- Python `d.get(k)` / `k in d` lookup on a string-keyed dict modelled as an
association list. -/
def dictLookup {α : Type} (k : String) : List (String × α) → Option α
  | [] => none
  | (k', v) :: rest => if k = k' then some v else dictLookup k rest

/-- Python `d[k] = v`: overwrite the existing binding in place, or append. -/
def dictInsert {α : Type} (k : String) (v : α) : List (String × α) → List (String × α)
  | [] => [(k, v)]
  | (k', v') :: rest => if k' = k then (k, v) :: rest else (k', v') :: dictInsert k v rest

/-- Python `s.strip()`: drop leading and trailing whitespace. -/
def pyStrip (s : String) : String :=
  ⟨((s.data.dropWhile Char.isWhitespace).reverse.dropWhile Char.isWhitespace).reverse⟩

/-- Helper for `pySplitDot`: accumulate the current chunk (reversed) while
scanning the characters. -/
def pySplitDotAux : List Char → List Char → List String
  | [], acc => [⟨acc.reverse⟩]
  | c :: rest, acc =>
    if c = '.' then (⟨acc.reverse⟩ : String) :: pySplitDotAux rest []
    else pySplitDotAux rest (c :: acc)

/-- Python `s.split(".")`: split on every dot, keeping empty chunks
(`"".split(".") == [""]`, `"a..b".split(".") == ["a", "", "b"]`). -/
def pySplitDot (s : String) : List String :=
  pySplitDotAux s.data []

/-! ## Retry policy: `_make_brightdata_request` (app/crimegrade_search.py, lines 40-104) -/

/-- `MAX_RETRIES = 3` (app/crimegrade_search.py line 31). -/
def MAX_RETRIES : ℕ := 3

/-- Outcome of one transport attempt (`requests.get` through the proxy):
either a response carrying an HTTP status code, a
`requests.exceptions.Timeout`, or any other `requests.exceptions.RequestException`. -/
inductive Outcome where
  | status (code : ℕ)
  | timeout
  | reqError
deriving DecidableEq, Repr

/-- Trace of one call of `_make_brightdata_request`: the returned value
(`some code` for a returned response with that status, `none` for Python
`None`), the number of `requests.get` attempts performed, and the list of
`time.sleep` durations in seconds, in order. -/
structure Trace where
  result : Option ℕ
  attempts : ℕ
  sleeps : List ℚ
deriving DecidableEq, Repr

/-- An outcome the source retries: HTTP 429, HTTP status >= 500, or a timeout. -/
def retryableb : Outcome → Bool
  | .status c => c == 429 || decide (500 ≤ c)
  | .timeout => true
  | .reqError => false

/-- Body of `_make_brightdata_request` (lines 53-104), fuelled.  At
`retry_count` the attempt observes `outs retry_count`; `jit retry_count` is the
value `random.uniform(0.5, 1.5)` would have drawn before the next retry.  The
recursion of the source only happens under `retry_count < MAX_RETRIES`, so any
fuel of at least `MAX_RETRIES + 1` makes the fuel-exhaustion branch unreachable.
Branches, in source order: status 429 (lines 62-72), status 403 (lines 73-75),
status >= 500 (lines 76-86), `raise_for_status` (line 88, raising exactly for
codes >= 400, caught at lines 101-104), success return (line 91), timeout
(lines 93-100), other request errors (lines 101-104). -/
def mbrGo (outs : ℕ → Outcome) (jit : ℕ → ℚ) : ℕ → ℕ → Trace
  | 0, _ => ⟨none, 0, []⟩
  | fuel + 1, retry_count =>
    match outs retry_count with
    | .status code =>
      if code = 429 then
        if retry_count < MAX_RETRIES then
          let t := mbrGo outs jit fuel (retry_count + 1)
          ⟨t.result, t.attempts + 1, ((2 ^ retry_count : ℚ) + jit retry_count) :: t.sleeps⟩
        else ⟨none, 1, []⟩
      else if code = 403 then ⟨none, 1, []⟩
      else if 500 ≤ code then
        if retry_count < MAX_RETRIES then
          let t := mbrGo outs jit fuel (retry_count + 1)
          ⟨t.result, t.attempts + 1, ((2 ^ retry_count : ℚ) + jit retry_count) :: t.sleeps⟩
        else ⟨none, 1, []⟩
      else if 400 ≤ code then ⟨none, 1, []⟩
      else ⟨some code, 1, []⟩
    | .timeout =>
      if retry_count < MAX_RETRIES then
        let t := mbrGo outs jit fuel (retry_count + 1)
        ⟨t.result, t.attempts + 1, (1 : ℚ) :: t.sleeps⟩
      else ⟨none, 1, []⟩
    | .reqError => ⟨none, 1, []⟩

/-- `_make_brightdata_request(target_url, retry_count)` (lines 40-104).
`creds` is whether `BRIGHTDATA_USERNAME` and `BRIGHTDATA_PASSWORD` are both
configured (lines 42-44: if not, return `None` before any attempt). -/
def _make_brightdata_request (creds : Bool) (outs : ℕ → Outcome) (jit : ℕ → ℚ)
    (retry_count : ℕ) : Trace :=
  if creds then mbrGo outs jit (MAX_RETRIES + 1) retry_count else ⟨none, 0, []⟩

/-! ## Fan-out work pool: `process_zipcodes` (app/crimegrade_search.py, lines 180-304) -/

/-- State of a durable JSON file at startup: absent, unreadable (`IOError` on
open/read), syntactically corrupt (`json.JSONDecodeError`), or readable with
the given parsed contents. -/
inductive FileState (α : Type) where
  | missing
  | unreadable
  | corrupt
  | good (contents : List (String × α))

/-- Loading of existing results (lines 193-202): a missing file, an `IOError`,
or a `json.JSONDecodeError` all leave `results = {}`; otherwise the parsed
mapping is used.  JSON `null` values load as Python `None`, modelled as
`Option`-valued entries at the call sites. -/
def loadExistingResults {α : Type} : FileState α → List (String × α)
  | .missing => []
  | .unreadable => []
  | .corrupt => []
  | .good contents => contents

/-- Selection of zipcodes to submit (lines 204-215): strip each raw input,
drop empties, and skip a zipcode exactly when it is present in `results`
with a value that is not `None`. -/
def zipcodesToProcess {Rec : Type} (results : List (String × Option Rec))
    (zipcodes : List String) : List String :=
  match zipcodes with
  | [] => []
  | zipcode_raw :: rest =>
    let zipcode := pyStrip zipcode_raw
    if zipcode = "" then zipcodesToProcess results rest
    else
      match dictLookup zipcode results with
      | some (some _) => zipcodesToProcess results rest
      | _ => zipcode :: zipcodesToProcess results rest

/-- Result of one worker future as observed at `future.result()` (line 241):
a truthy crime-grade dict, `None` (stored as a null failure marker), or an
exception raised out of the future (line 273). -/
inductive WorkerOutcome (Rec : Type) where
  | ok (r : Rec)
  | fail
  | exc
deriving DecidableEq, Repr

/-- Mutable state of the completion loop of `process_zipcodes`.  `savedFile`
is the contents of `data/crime_grades.json` after the last successful write
during this run (`none` if none happened yet); `saveAttempts` and
`logAttempts` count attempted writes to the results file and to
`data/failed_zipcodes_crime.txt`, indexing the I/O-behaviour streams. -/
structure PoolState (Rec : Type) where
  results : List (String × Option Rec)
  processed_in_batch : ℕ
  total_failed : ℕ
  failedLog : List String
  savedFile : Option (List (String × Option Rec))
  saveAttempts : ℕ
  logAttempts : ℕ
deriving DecidableEq, Repr

/-- Lines 258-270: increment `processed_in_batch`; once it reaches
`save_batch_size`, attempt to dump `results`; on success reset the counter,
on `IOError` keep it (the write is retried at the next threshold check). -/
def incrAndMaybeSave {Rec : Type} (saveOk : ℕ → Bool) (save_batch_size : ℕ)
    (st : PoolState Rec) : PoolState Rec :=
  let c := st.processed_in_batch + 1
  if save_batch_size ≤ c then
    if saveOk st.saveAttempts then
      { st with processed_in_batch := 0, savedFile := some st.results,
                saveAttempts := st.saveAttempts + 1 }
    else
      { st with processed_in_batch := c, saveAttempts := st.saveAttempts + 1 }
  else { st with processed_in_batch := c }

/-- Append one line to the failed-zipcodes log (lines 252-256 and 280-284);
an `IOError` is caught and only logged. -/
def logAppend {Rec : Type} (logOk : ℕ → Bool) (line : String)
    (st : PoolState Rec) : PoolState Rec :=
  if logOk st.logAttempts then
    { st with failedLog := st.failedLog ++ [line], logAttempts := st.logAttempts + 1 }
  else { st with logAttempts := st.logAttempts + 1 }

/-- Processing of one completed future (lines 235-285).  A truthy result is
stored; `None` is stored as a null marker, counted, and logged; both then run
the batch counter/checkpoint logic.  An exception from `future.result()` is
caught, stored as a null marker, counted, and logged with the
`" (exception)"` annotation — without touching the batch counter. -/
def poolStep {Rec : Type} (saveOk logOk : ℕ → Bool) (save_batch_size : ℕ)
    (st : PoolState Rec) (zipcode : String) (out : WorkerOutcome Rec) : PoolState Rec :=
  match out with
  | .ok r =>
    incrAndMaybeSave saveOk save_batch_size
      { st with results := dictInsert zipcode (some r) st.results }
  | .fail =>
    incrAndMaybeSave saveOk save_batch_size
      (logAppend logOk zipcode
        { st with results := dictInsert zipcode none st.results,
                  total_failed := st.total_failed + 1 })
  | .exc =>
    logAppend logOk (zipcode ++ " (exception)")
      { st with results := dictInsert zipcode none st.results,
                total_failed := st.total_failed + 1 }

/-- The completion loop, folded over the futures in their completion order. -/
def runPool {Rec : Type} (saveOk logOk : ℕ → Bool) (save_batch_size : ℕ)
    (st : PoolState Rec) : List (String × WorkerOutcome Rec) → PoolState Rec
  | [] => st
  | (zipcode, out) :: rest =>
    runPool saveOk logOk save_batch_size
      (poolStep saveOk logOk save_batch_size st zipcode out) rest

/-- Final save (lines 293-302): one more attempted dump of `results`; an
`IOError` is caught and only logged. -/
def finalSave {Rec : Type} (saveOk : ℕ → Bool) (st : PoolState Rec) : PoolState Rec :=
  if saveOk st.saveAttempts then
    { st with savedFile := some st.results, saveAttempts := st.saveAttempts + 1 }
  else { st with saveAttempts := st.saveAttempts + 1 }

/-- Observable outcome of `process_zipcodes`: the final pool state and the
list of zipcodes submitted to the executor.  `search_crime_grade` is invoked
exactly once per entry of `invocations` (lines 226-231). -/
structure RunOutcome (Rec : Type) where
  finalState : PoolState Rec
  invocations : List String

/-- `process_zipcodes(zipcodes, max_workers, save_batch_size)` (lines
180-304).  `worker` gives each submitted zipcode's `search_crime_grade`
outcome; `completionOrder` is the order in which `as_completed` yields the
futures (for a faithful run it is a permutation of the submitted zipcodes —
the theorems below hold for every order).  When nothing is left to process
the function returns early with the loaded results (lines 219-221). -/
def process_zipcodes {Rec : Type} (saveOk logOk : ℕ → Bool)
    (worker : String → WorkerOutcome Rec) (fs : FileState (Option Rec))
    (zipcodes : List String) (save_batch_size : ℕ)
    (completionOrder : List String) : RunOutcome Rec :=
  let results := loadExistingResults fs
  let toProcess := zipcodesToProcess results zipcodes
  let st0 : PoolState Rec := ⟨results, 0, 0, [], none, 0, 0⟩
  if toProcess.isEmpty then ⟨st0, []⟩
  else
    ⟨finalSave saveOk
        (runPool saveOk logOk save_batch_size st0
          (completionOrder.map (fun z => (z, worker z)))),
      toProcess⟩

/-! ## Pagination: `search_properties` (app/zillow.py, lines 104-291) -/

/-- Server response for one page of the search: the two record sequences of
`data["cat1"]["searchResults"]` and the `data["cat1"]["searchList"]["totalPages"]`
value.  Records are kept opaque (`α`). -/
structure PageResp (α : Type) where
  listResults : List α
  mapResults : List α
  totalPages : ℕ
deriving DecidableEq, Repr

/-- The accumulated `search_results` dictionary (lines 259-262). -/
structure SearchResults (α : Type) where
  listResults : List α
  mapResults : List α
deriving DecidableEq, Repr

/-- Trace of a `search_properties` call: the returned dictionary, the page
numbers requested via `session.put`, in order, and the `time.sleep` durations
in seconds, in order. -/
structure SearchTrace (α : Type) where
  results : SearchResults α
  fetchedPages : List ℕ
  sleeps : List ℚ
deriving DecidableEq, Repr

/-- Pagination loop of `search_properties` (lines 257-289), fuelled.
`last_page` starts at `float('inf')` (modelled `none`); the loop runs while
`page < last_page`, fetches the page, extends both result lists, sets
`last_page` to the first response's `totalPages` (only while it is still
infinite), sleeps 0.5 s and increments `page`.  The loop executes at most
`1 + (totalPages of page 1) - 2` iterations, so any fuel of at least
`totalPages + 1` makes the fuel-exhaustion branch unreachable. -/
def searchLoop {α : Type} (resp : ℕ → PageResp α) : ℕ → ℕ → Option ℕ → SearchTrace α
  | 0, _, _ => ⟨⟨[], []⟩, [], []⟩
  | fuel + 1, page, last_page =>
    let keepGoing : Bool :=
      match last_page with
      | none => true
      | some last => decide (page < last)
    if keepGoing then
      let r := resp page
      let last' : Option ℕ :=
        match last_page with
        | none => some r.totalPages
        | some last => some last
      let t := searchLoop resp fuel (page + 1) last'
      ⟨⟨r.listResults ++ t.results.listResults, r.mapResults ++ t.results.mapResults⟩,
        page :: t.fetchedPages, (1 / 2 : ℚ) :: t.sleeps⟩
    else ⟨⟨[], []⟩, [], []⟩

/-- `search_properties` pagination (lines 257-291): starts at `page = 1` with
`last_page = float('inf')`. -/
def search_properties {α : Type} (resp : ℕ → PageResp α) : SearchTrace α :=
  searchLoop resp ((resp 1).totalPages + 1) 1 none

/-! ## Details fetcher and cache (app/details.py) -/

/-- `_init_cache` (app/details.py, lines 55-67): a missing file leaves the
cache empty; `json.JSONDecodeError` and `IOError` are caught, logged as a
warning, and leave the cache empty; otherwise the parsed mapping is used. -/
def _init_cache {α : Type} : FileState α → List (String × α)
  | .missing => []
  | .unreadable => []
  | .corrupt => []
  | .good contents => contents

/-- The module-level school cache: the mapping plus its `_cache_dirty` flag. -/
structure CacheState (β : Type) where
  cache : List (String × List (String × β))
  dirty : Bool
deriving DecidableEq, Repr

/-- `_cache_get` (lines 86-89). -/
def _cache_get {β : Type} (st : CacheState β) (zpid : String) :
    Option (List (String × β)) :=
  dictLookup zpid st.cache

/-- `_cache_set` (lines 92-97): insert and mark the cache dirty. -/
def _cache_set {β : Type} (st : CacheState β) (zpid : String)
    (data : List (String × β)) : CacheState β :=
  ⟨dictInsert zpid data st.cache, true⟩

/-- `get_property_details_by_zpid` (lines 204-236).  `fetch` abstracts
`get_property_details_by_url` for the URL built from the zpid; the details
dictionary it parses may be empty.  Returns the details, the new cache state,
and whether a fetch was performed (cache miss). -/
def get_property_details_by_zpid {β : Type} (fetch : String → List (String × β))
    (st : CacheState β) (zpid : String) :
    List (String × β) × CacheState β × Bool :=
  match _cache_get st zpid with
  | some cached => (cached, st, false)
  | none =>
    let details := fetch zpid
    if details.isEmpty then (details, st, true)
    else (details, _cache_set st zpid details, true)

/-! ## Nested-field access: `_get_nested_value` (app/details.py, lines 112-123) -/

/-- JSON-like Python values reachable by `_get_nested_value`. -/
inductive JValue where
  | null
  | bool (b : Bool)
  | num (n : ℤ)
  | str (s : String)
  | arr (elems : List JValue)
  | obj (entries : List (String × JValue))

/-- Python `current is None`. -/
def isNull : JValue → Bool
  | .null => true
  | _ => false

/-- Python `current == {}` (only a dict with no entries compares equal to `{}`). -/
def isEmptyObj : JValue → Bool
  | .obj [] => true
  | _ => false

/-- Python `isinstance(current, dict)`. -/
def isObj : JValue → Bool
  | .obj _ => true
  | _ => false

/-- Loop body of `_get_nested_value` over the split key path (lines 115-123):
for each key, if the current value is a dict take `current.get(key, {})`,
otherwise return the default; then return the default if the new current is
`{}` or `None`; after the loop return the current value. -/
def getNestedGo (default : JValue) : List String → JValue → JValue
  | [], current => current
  | key :: rest, current =>
    match current with
    | .obj entries =>
      let next := (dictLookup key entries).getD (.obj [])
      if isEmptyObj next || isNull next then default else getNestedGo default rest next
    | _ => default

/-- `_get_nested_value(dic, key_path, default)` (lines 112-123):
`keys = key_path.split(".")` then the traversal loop. -/
def _get_nested_value (dic : JValue) (key_path : String) (default : JValue) : JValue :=
  getNestedGo default (pySplitDot key_path) dic

/-- A concrete two-page server behaviour used to exhibit the pagination
cut-off: every page reports `totalPages = 2`, page `p` carries the single
list record `p` and map record `p + 100`. -/
def twoPageResp : ℕ → PageResp ℕ := fun p => ⟨[p], [p + 100], 2⟩

/-! # Theorems -/

/-! ## Retry policy lemmas -/

theorem retryableb_cases {o : Outcome} (h : retryableb o = true) :
    o = .timeout ∨ o = .status 429 ∨ ∃ c, o = .status c ∧ 500 ≤ c := by
  cases o with
  | status c =>
    simp only [retryableb, Bool.or_eq_true, beq_iff_eq, decide_eq_true_eq] at h
    rcases h with h | h
    · exact Or.inr (Or.inl (by rw [h]))
    · exact Or.inr (Or.inr ⟨c, rfl, h⟩)
  | timeout => exact Or.inl rfl
  | reqError => simp [retryableb] at h

theorem mbrGo_step_retry (outs : ℕ → Outcome) (jit : ℕ → ℚ) (fuel rc : ℕ)
    (h : retryableb (outs rc) = true) (hrc : rc < MAX_RETRIES) :
    mbrGo outs jit (fuel + 1) rc =
      ⟨(mbrGo outs jit fuel (rc + 1)).result, (mbrGo outs jit fuel (rc + 1)).attempts + 1,
        (if outs rc = .timeout then (1 : ℚ) else (2 ^ rc : ℚ) + jit rc)
          :: (mbrGo outs jit fuel (rc + 1)).sleeps⟩ := by
  rcases retryableb_cases h with ht | h429 | ⟨c, hc, hc5⟩
  · simp [mbrGo, ht, hrc]
  · simp [mbrGo, h429, hrc]
  · have h1 : ¬(c = 429) := by omega
    have h2 : ¬(c = 403) := by omega
    simp [mbrGo, hc, hrc, h1, h2, hc5]

theorem mbrGo_step_exhaust (outs : ℕ → Outcome) (jit : ℕ → ℚ) (fuel rc : ℕ)
    (h : retryableb (outs rc) = true) (hrc : MAX_RETRIES ≤ rc) :
    mbrGo outs jit (fuel + 1) rc = ⟨none, 1, []⟩ := by
  have hn : ¬(rc < MAX_RETRIES) := by omega
  rcases retryableb_cases h with ht | h429 | ⟨c, hc, hc5⟩
  · simp [mbrGo, ht, hn]
  · simp [mbrGo, h429, hn]
  · have h1 : ¬(c = 429) := by omega
    have h2 : ¬(c = 403) := by omega
    simp [mbrGo, hc, hn, h1, h2, hc5]

theorem mbrGo_step_success (outs : ℕ → Outcome) (jit : ℕ → ℚ) (fuel rc c : ℕ)
    (h : outs rc = .status c) (hc : c < 400) :
    mbrGo outs jit (fuel + 1) rc = ⟨some c, 1, []⟩ := by
  have h1 : ¬(c = 429) := by omega
  have h2 : ¬(c = 403) := by omega
  have h3 : ¬(500 ≤ c) := by omega
  have h4 : ¬(400 ≤ c) := by omega
  simp [mbrGo, h, h1, h2, h3, h4]

theorem mbrGo_all_retryable (outs : ℕ → Outcome) (jit : ℕ → ℚ) :
    ∀ fuel rc, rc ≤ MAX_RETRIES →
      (∀ i, rc ≤ i → i ≤ MAX_RETRIES → retryableb (outs i) = true) →
      MAX_RETRIES + 1 - rc ≤ fuel →
      (mbrGo outs jit fuel rc).result = none
        ∧ (mbrGo outs jit fuel rc).attempts = MAX_RETRIES + 1 - rc := by
  intro fuel
  induction fuel with
  | zero => intro rc h1 _ h3; omega
  | succ fuel ih =>
    intro rc h1 h2 h3
    by_cases hrc : rc < MAX_RETRIES
    · rw [mbrGo_step_retry outs jit fuel rc (h2 rc le_rfl h1) hrc]
      have hrec := ih (rc + 1) (by omega) (fun i hi1 hi2 => h2 i (by omega) hi2) (by omega)
      exact ⟨hrec.1, by show (mbrGo outs jit fuel (rc + 1)).attempts + 1 = _; omega⟩
    · rw [mbrGo_step_exhaust outs jit fuel rc (h2 rc le_rfl h1) (by omega)]
      exact ⟨rfl, by show 1 = MAX_RETRIES + 1 - rc; omega⟩

theorem mbrGo_success_after (outs : ℕ → Outcome) (jit : ℕ → ℚ) (k c : ℕ)
    (hs : outs k = .status c) (hc : c < 400) :
    ∀ fuel rc, rc ≤ k → k ≤ MAX_RETRIES →
      (∀ i, rc ≤ i → i < k → retryableb (outs i) = true) →
      k - rc < fuel →
      (mbrGo outs jit fuel rc).result = some c := by
  intro fuel
  induction fuel with
  | zero => intro rc _ _ _ h4; omega
  | succ fuel ih =>
    intro rc h1 h2 h3 h4
    by_cases hrk : rc = k
    · subst hrk
      rw [mbrGo_step_success outs jit fuel rc c hs hc]
    · have hlt : rc < k := by omega
      rw [mbrGo_step_retry outs jit fuel rc (h3 rc le_rfl hlt) (by omega)]
      exact ih (rc + 1) (by omega) h2 (fun i hi1 hi2 => h3 i (by omega) hi2) (by omega)

theorem mbrGo_sleeps_get (outs : ℕ → Outcome) (jit : ℕ → ℚ) :
    ∀ i fuel rc, (∀ j, rc ≤ j → j ≤ rc + i → retryableb (outs j) = true) →
      rc + i < MAX_RETRIES → i < fuel →
      (mbrGo outs jit fuel rc).sleeps.get? i
        = some (if outs (rc + i) = .timeout then (1 : ℚ)
                else (2 ^ (rc + i) : ℚ) + jit (rc + i)) := by
  intro i
  induction i with
  | zero =>
    intro fuel rc h1 h2 h3
    obtain ⟨f, rfl⟩ : ∃ f, fuel = f + 1 := ⟨fuel - 1, by omega⟩
    rw [mbrGo_step_retry outs jit f rc (h1 rc le_rfl (by omega)) (by omega)]
    simp
  | succ i ih =>
    intro fuel rc h1 h2 h3
    obtain ⟨f, rfl⟩ : ∃ f, fuel = f + 1 := ⟨fuel - 1, by omega⟩
    rw [mbrGo_step_retry outs jit f rc (h1 rc le_rfl (by omega)) (by omega)]
    show (mbrGo outs jit f (rc + 1)).sleeps.get? i = _
    have heq : rc + 1 + i = rc + (i + 1) := by omega
    rw [ih f (rc + 1) (fun j hj1 hj2 => h1 j (by omega) (by omega)) (by omega) (by omega), heq]

/-! ## Claims C1, C5, C6 -/

/-- Claim C1: for every transport-outcome stream whose first `MAX_RETRIES + 1`
outcomes are all retryable (HTTP 429, status >= 500, or timeout),
`_make_brightdata_request` returns `None` after exactly `MAX_RETRIES + 1`
request attempts, never more; and for every stream with fewer than
`MAX_RETRIES` retryable failures followed by a 2xx response, it returns that
successful response. -/
theorem c1_bounded_attempts_and_eventual_success
    (outs₁ outs₂ : ℕ → Outcome) (jit : ℕ → ℚ) (k c : ℕ)
    (h1 : ∀ i, i ≤ MAX_RETRIES → retryableb (outs₁ i) = true)
    (hk : k < MAX_RETRIES)
    (h2 : ∀ i, i < k → retryableb (outs₂ i) = true)
    (hs : outs₂ k = .status c) (hc1 : 200 ≤ c) (hc2 : c < 300) :
    ((_make_brightdata_request true outs₁ jit 0).result = none
      ∧ (_make_brightdata_request true outs₁ jit 0).attempts = MAX_RETRIES + 1)
    ∧ (_make_brightdata_request true outs₂ jit 0).result = some c := by
  have hconv1 : _make_brightdata_request true outs₁ jit 0
      = mbrGo outs₁ jit (MAX_RETRIES + 1) 0 := rfl
  have hconv2 : _make_brightdata_request true outs₂ jit 0
      = mbrGo outs₂ jit (MAX_RETRIES + 1) 0 := rfl
  refine ⟨?_, ?_⟩
  · rw [hconv1]
    have := mbrGo_all_retryable outs₁ jit (MAX_RETRIES + 1) 0 (by omega)
      (fun i _ hi2 => h1 i hi2) (by omega)
    exact ⟨this.1, by rw [this.2]; omega⟩
  · rw [hconv2]
    exact mbrGo_success_after outs₂ jit k c hs (by omega) (MAX_RETRIES + 1) 0 (by omega)
      (by omega) (fun i _ hi2 => h2 i hi2) (by omega)

/-- Witness for C1 at concrete inputs: four straight 429s exhaust the retries
with exactly 4 attempts; one 500 followed by a 200 returns the 200. -/
theorem c1_bounded_attempts_and_eventual_success_witness :
    (∀ i, i ≤ MAX_RETRIES → retryableb ((fun _ => Outcome.status 429) i) = true)
    ∧ 1 < MAX_RETRIES
    ∧ (∀ i, i < 1 →
        retryableb ((fun j => if j = 0 then Outcome.status 500 else Outcome.status 200) i) = true)
    ∧ (fun j => if j = 0 then Outcome.status 500 else Outcome.status 200) 1 = Outcome.status 200
    ∧ ((_make_brightdata_request true (fun _ => Outcome.status 429) (fun _ => 1) 0).result = none
        ∧ (_make_brightdata_request true (fun _ => Outcome.status 429) (fun _ => 1) 0).attempts
            = MAX_RETRIES + 1)
    ∧ (_make_brightdata_request true
        (fun j => if j = 0 then Outcome.status 500 else Outcome.status 200) (fun _ => 1) 0).result
        = some 200 := by
  refine ⟨by decide, by decide, by decide, by decide, ?_⟩
  exact c1_bounded_attempts_and_eventual_success
    (fun _ => Outcome.status 429) (fun j => if j = 0 then Outcome.status 500 else Outcome.status 200)
    (fun _ => 1) 1 200 (by decide) (by decide) (by decide) (by decide) (by decide) (by decide)

/-- Claim C5: before retry attempt `i` (0-indexed count of prior failed
attempts), the wait after an HTTP 429 or a status >= 500 is `2^i` seconds plus
the jitter drawn from `[0.5, 1.5)`, while the wait after a timeout is a flat
1 second regardless of `i`.  The jitter stream `jit` models the draws of
`random.uniform(0.5, 1.5)`; whenever the draw lies in `[0.5, 1.5)` the
429/5xx wait lies in `[2^i + 0.5, 2^i + 1.5)`. -/
theorem c5_backoff_asymmetry (outs : ℕ → Outcome) (jit : ℕ → ℚ) (i : ℕ)
    (hi : i < MAX_RETRIES) (hall : ∀ j, j ≤ i → retryableb (outs j) = true) :
    ((_make_brightdata_request true outs jit 0).sleeps.get? i
      = some (if outs i = .timeout then (1 : ℚ) else (2 ^ i : ℚ) + jit i))
    ∧ (outs i ≠ .timeout → (1 / 2 : ℚ) ≤ jit i → jit i < 3 / 2 →
        ∃ s, (_make_brightdata_request true outs jit 0).sleeps.get? i = some s
          ∧ (2 ^ i : ℚ) + 1 / 2 ≤ s ∧ s < (2 ^ i : ℚ) + 3 / 2) := by
  have hconv : _make_brightdata_request true outs jit 0
      = mbrGo outs jit (MAX_RETRIES + 1) 0 := rfl
  have base := mbrGo_sleeps_get outs jit i (MAX_RETRIES + 1) 0
    (fun j _ hj2 => hall j (by omega)) (by omega) (by omega)
  rw [Nat.zero_add] at base
  refine ⟨by rw [hconv, base], fun ht hj1 hj2 => ?_⟩
  refine ⟨(2 ^ i : ℚ) + jit i, ?_, by linarith, by linarith⟩
  rw [hconv, base, if_neg ht]

/-- Witness for C5 at a concrete input: after a timeout at attempt 0 the wait
is 1 s, and after a 500 at attempt 1 the wait is `2^1` plus the jitter. -/
theorem c5_backoff_asymmetry_witness :
    1 < MAX_RETRIES
    ∧ (∀ j, j ≤ 1 →
        retryableb ((fun n => if n = 0 then Outcome.timeout else Outcome.status 500) j) = true)
    ∧ ((_make_brightdata_request true
          (fun n => if n = 0 then Outcome.timeout else Outcome.status 500)
          (fun _ => 1) 0).sleeps.get? 1
        = some (if (fun n => if n = 0 then Outcome.timeout else Outcome.status 500) 1
                  = Outcome.timeout then (1 : ℚ)
                else (2 ^ 1 : ℚ) + (fun _ => (1 : ℚ)) 1)) := by
  refine ⟨by decide, by decide, ?_⟩
  exact (c5_backoff_asymmetry
    (fun n => if n = 0 then Outcome.timeout else Outcome.status 500)
    (fun _ => 1) 1 (by decide) (by decide)).1

/-- Claim C6: a Forbidden outcome (HTTP 403) or absent proxy credentials makes
`_make_brightdata_request` return a terminal failure (`None`) at once — with no
further request attempt and no backoff sleep — for every value of the retry
counter.  With missing credentials no request at all is made; on a 403 the one
attempt that observed the 403 is the only one. -/
theorem c6_forbidden_and_missing_credentials_terminal (outs : ℕ → Outcome) (jit : ℕ → ℚ)
    (rc : ℕ) :
    _make_brightdata_request false outs jit rc = ⟨none, 0, []⟩
    ∧ (outs rc = .status 403 → _make_brightdata_request true outs jit rc = ⟨none, 1, []⟩) := by
  refine ⟨by simp [_make_brightdata_request], fun h => ?_⟩
  show mbrGo outs jit (MAX_RETRIES + 1) rc = _
  show mbrGo outs jit (3 + 1) rc = _
  simp [mbrGo, h]

/-- Witness for C6 at a concrete input: a 403 at retry counter 2 returns
`None` after that single attempt, with no sleep. -/
theorem c6_forbidden_and_missing_credentials_terminal_witness :
    (fun _ => Outcome.status 403) 2 = Outcome.status 403
    ∧ _make_brightdata_request true (fun _ => Outcome.status 403) (fun _ => 1) 2
        = ⟨none, 1, []⟩ := by
  exact ⟨by decide,
    (c6_forbidden_and_missing_credentials_terminal (fun _ => Outcome.status 403)
      (fun _ => 1) 2).2 (by decide)⟩

/-! ## Association-list lemmas -/

theorem dictLookup_dictInsert {α : Type} (k x : String) (v : α) (m : List (String × α)) :
    dictLookup x (dictInsert k v m) = if x = k then some v else dictLookup x m := by
  induction m with
  | nil => simp [dictInsert, dictLookup]
  | cons hd tl ih =>
    obtain ⟨k', v'⟩ := hd
    by_cases hk : k' = k
    · subst hk
      by_cases hx : x = k' <;> simp [dictInsert, dictLookup, hx]
    · by_cases hx : x = k'
      · subst hx
        have hxk : ¬(x = k) := hk
        simp [dictInsert, dictLookup, hk, hxk]
      · simp [dictInsert, dictLookup, hk, hx, ih]

/-! ## Work-pool state lemmas -/

theorem logAppend_results {Rec : Type} (logOk : ℕ → Bool) (line : String)
    (st : PoolState Rec) : (logAppend logOk line st).results = st.results := by
  unfold logAppend; split <;> rfl

theorem logAppend_processed_in_batch {Rec : Type} (logOk : ℕ → Bool) (line : String)
    (st : PoolState Rec) :
    (logAppend logOk line st).processed_in_batch = st.processed_in_batch := by
  unfold logAppend; split <;> rfl

theorem logAppend_savedFile {Rec : Type} (logOk : ℕ → Bool) (line : String)
    (st : PoolState Rec) : (logAppend logOk line st).savedFile = st.savedFile := by
  unfold logAppend; split <;> rfl

theorem logAppend_saveAttempts {Rec : Type} (logOk : ℕ → Bool) (line : String)
    (st : PoolState Rec) : (logAppend logOk line st).saveAttempts = st.saveAttempts := by
  unfold logAppend; split <;> rfl

theorem logAppend_total_failed {Rec : Type} (logOk : ℕ → Bool) (line : String)
    (st : PoolState Rec) : (logAppend logOk line st).total_failed = st.total_failed := by
  unfold logAppend; split <;> rfl

theorem logAppend_failedLog_of_ok {Rec : Type} (logOk : ℕ → Bool) (line : String)
    (st : PoolState Rec) (h : logOk st.logAttempts = true) :
    (logAppend logOk line st).failedLog = st.failedLog ++ [line] := by
  unfold logAppend; rw [if_pos h]

theorem incrAndMaybeSave_results {Rec : Type} (saveOk : ℕ → Bool) (bs : ℕ)
    (st : PoolState Rec) : (incrAndMaybeSave saveOk bs st).results = st.results := by
  by_cases h1 : bs ≤ st.processed_in_batch + 1 <;>
    cases h2 : saveOk st.saveAttempts <;>
      simp [incrAndMaybeSave, h1, h2]

theorem incrAndMaybeSave_pos {Rec : Type} (saveOk : ℕ → Bool) (bs : ℕ)
    (st : PoolState Rec) (hth : bs ≤ st.processed_in_batch + 1)
    (hs : saveOk st.saveAttempts = true) :
    incrAndMaybeSave saveOk bs st
      = { st with processed_in_batch := 0, savedFile := some st.results,
                  saveAttempts := st.saveAttempts + 1 } := by
  unfold incrAndMaybeSave
  rw [if_pos hth, if_pos hs]

theorem incrAndMaybeSave_neg {Rec : Type} (saveOk : ℕ → Bool) (bs : ℕ)
    (st : PoolState Rec) (hth : bs ≤ st.processed_in_batch + 1)
    (hs : saveOk st.saveAttempts = false) :
    incrAndMaybeSave saveOk bs st
      = { st with processed_in_batch := st.processed_in_batch + 1,
                  saveAttempts := st.saveAttempts + 1 } := by
  unfold incrAndMaybeSave
  rw [if_pos hth, if_neg (by simp [hs])]

theorem poolStep_results {Rec : Type} (saveOk logOk : ℕ → Bool) (bs : ℕ)
    (st : PoolState Rec) (k : String) (out : WorkerOutcome Rec) :
    (poolStep saveOk logOk bs st k out).results
      = dictInsert k (match out with | .ok r => some r | _ => none) st.results := by
  cases out <;>
    simp [poolStep, incrAndMaybeSave_results, logAppend_results]

theorem poolStep_lookup_isSome {Rec : Type} (saveOk logOk : ℕ → Bool) (bs : ℕ)
    (st : PoolState Rec) (k : String) (out : WorkerOutcome Rec) (x : String) :
    (dictLookup x st.results).isSome = true ∨ x = k →
      (dictLookup x (poolStep saveOk logOk bs st k out).results).isSome = true := by
  intro h
  rw [poolStep_results, dictLookup_dictInsert]
  by_cases hx : x = k
  · rw [if_pos hx]; rfl
  · rw [if_neg hx]
    rcases h with h | h
    · exact h
    · exact absurd h hx

theorem runPool_preserves_isSome {Rec : Type} (saveOk logOk : ℕ → Bool) (bs : ℕ) :
    ∀ (cs : List (String × WorkerOutcome Rec)) (st : PoolState Rec) (x : String),
      (dictLookup x st.results).isSome = true →
      (dictLookup x (runPool saveOk logOk bs st cs).results).isSome = true := by
  intro cs
  induction cs with
  | nil => intro st x h; exact h
  | cons c rest ih =>
    intro st x h
    obtain ⟨k, o⟩ := c
    exact ih _ x (poolStep_lookup_isSome saveOk logOk bs st k o x (Or.inl h))

theorem runPool_all_present {Rec : Type} (saveOk logOk : ℕ → Bool) (bs : ℕ) :
    ∀ (cs : List (String × WorkerOutcome Rec)) (st : PoolState Rec)
      (p : String × WorkerOutcome Rec), p ∈ cs →
      (dictLookup p.1 (runPool saveOk logOk bs st cs).results).isSome = true := by
  intro cs
  induction cs with
  | nil => intro st p hp; cases hp
  | cons c rest ih =>
    intro st p hp
    rcases List.mem_cons.1 hp with rfl | hmem
    · obtain ⟨k, o⟩ := p
      exact runPool_preserves_isSome saveOk logOk bs rest _ k
        (poolStep_lookup_isSome saveOk logOk bs st k o k (Or.inr rfl))
    · obtain ⟨k, o⟩ := c
      exact ih _ p hmem

/-! ## Resume-skip lemmas and claim C2 -/

theorem zipcodesToProcess_not_mem {Rec : Type} (results : List (String × Option Rec))
    (k : String) (r : Rec) (h : dictLookup k results = some (some r)) :
    ∀ zs, k ∉ zipcodesToProcess results zs := by
  intro zs
  induction zs with
  | nil => simp [zipcodesToProcess]
  | cons z rest ih =>
    simp only [zipcodesToProcess]
    by_cases hz : pyStrip z = ""
    · rw [if_pos hz]; exact ih
    · rw [if_neg hz]
      by_cases hzk : pyStrip z = k
      · rw [hzk, h]; exact ih
      · cases hl : dictLookup (pyStrip z) results with
        | none =>
          intro hmem
          rcases List.mem_cons.1 hmem with he | hmem'
          · exact hzk he.symm
          · exact ih hmem'
        | some v =>
          cases v with
          | none =>
            intro hmem
            rcases List.mem_cons.1 hmem with he | hmem'
            · exact hzk he.symm
            · exact ih hmem'
          | some r' => exact ih

theorem zipcodesToProcess_mem_of_null {Rec : Type} (results : List (String × Option Rec))
    (k : String) (h : dictLookup k results = some none) :
    ∀ zs z, z ∈ zs → pyStrip z = k → ¬(k = "") → k ∈ zipcodesToProcess results zs := by
  intro zs
  induction zs with
  | nil => intro z hz; cases hz
  | cons z0 rest ih =>
    intro z hz hzk hk
    simp only [zipcodesToProcess]
    rcases List.mem_cons.1 hz with rfl | hmem
    · rw [hzk, if_neg hk, h]
      exact List.mem_cons_self k _
    · have hrec := ih z hmem hzk hk
      by_cases hz0 : pyStrip z0 = ""
      · rw [if_pos hz0]; exact hrec
      · rw [if_neg hz0]
        cases hl : dictLookup (pyStrip z0) results with
        | none => exact List.mem_cons_of_mem _ hrec
        | some v =>
          cases v with
          | none => exact List.mem_cons_of_mem _ hrec
          | some r' => exact hrec

/-- Claim C2 as stated is false on the code: a key present in the durable
store with a null failure marker is NOT skipped on resume — the skip test at
line 212 requires `results[zipcode] is not None`, so the key is submitted to
the worker again.  Concretely, with `{"94107": null}` on disk and input
`["94107"]`, the worker is invoked for `"94107"`. -/
theorem c2_counterexample :
    "94107" ∈ (process_zipcodes (fun _ => true) (fun _ => true)
      (fun _ => (WorkerOutcome.fail : WorkerOutcome ℕ))
      (FileState.good [("94107", none)]) ["94107"] 50 ["94107"]).invocations := by
  decide

/-- Claim C2 amended: only keys present in the durable result store with a
non-null success record are skipped on resume (the worker is never invoked
for them); keys recorded as failed (null markers) are not skipped — any
occurrence of such a key in the input list is submitted to the worker
again. -/
theorem c2_amended_resume_skips_successes_only {Rec : Type} (saveOk logOk : ℕ → Bool)
    (worker : String → WorkerOutcome Rec) (fs : FileState (Option Rec))
    (zipcodes : List String) (bs : ℕ) (ord : List String) (k : String) :
    (∀ r : Rec, dictLookup k (loadExistingResults fs) = some (some r) →
      k ∉ (process_zipcodes saveOk logOk worker fs zipcodes bs ord).invocations)
    ∧ (dictLookup k (loadExistingResults fs) = some none →
        ∀ z ∈ zipcodes, pyStrip z = k → ¬(k = "") →
        k ∈ (process_zipcodes saveOk logOk worker fs zipcodes bs ord).invocations) := by
  constructor
  · intro r h
    simp only [process_zipcodes]
    split
    · simp
    · exact zipcodesToProcess_not_mem (loadExistingResults fs) k r h zipcodes
  · intro h z hz hzk hk
    have hmem := zipcodesToProcess_mem_of_null (loadExistingResults fs) k h zipcodes z hz hzk hk
    simp only [process_zipcodes]
    split
    · next he =>
      rw [List.isEmpty_iff] at he
      rw [he] at hmem
      cases hmem
    · exact hmem

/-- Witness for the amended C2 at concrete inputs: with durable store
`{"10001": Success(7), "94107": null}` and inputs `["10001", "94107"]`, the
worker is never invoked for `"10001"` but is invoked for `"94107"`. -/
theorem c2_amended_resume_skips_successes_only_witness :
    dictLookup "10001"
        (loadExistingResults (FileState.good [("10001", some 7), ("94107", (none : Option ℕ))]))
      = some (some 7)
    ∧ "10001" ∉ (process_zipcodes (fun _ => true) (fun _ => true)
        (fun _ => (WorkerOutcome.fail : WorkerOutcome ℕ))
        (FileState.good [("10001", some 7), ("94107", none)])
        ["10001", "94107"] 50 ["94107"]).invocations
    ∧ dictLookup "94107"
        (loadExistingResults (FileState.good [("10001", some 7), ("94107", (none : Option ℕ))]))
      = some none
    ∧ "94107" ∈ (process_zipcodes (fun _ => true) (fun _ => true)
        (fun _ => (WorkerOutcome.fail : WorkerOutcome ℕ))
        (FileState.good [("10001", some 7), ("94107", none)])
        ["10001", "94107"] 50 ["94107"]).invocations := by
  refine ⟨by decide, ?_, by decide, ?_⟩
  · exact (c2_amended_resume_skips_successes_only (fun _ => true) (fun _ => true)
      (fun _ => (WorkerOutcome.fail : WorkerOutcome ℕ))
      (FileState.good [("10001", some 7), ("94107", none)])
      ["10001", "94107"] 50 ["94107"] "10001").1 7 (by decide)
  · exact (c2_amended_resume_skips_successes_only (fun _ => true) (fun _ => true)
      (fun _ => (WorkerOutcome.fail : WorkerOutcome ℕ))
      (FileState.good [("10001", some 7), ("94107", none)])
      ["10001", "94107"] 50 ["94107"] "94107").2 (by decide) "94107" (by decide)
      (by decide) (by decide)

/-! ## Checkpoint lemmas and claim C3 -/

theorem poolStep_checkpoint_pos {Rec : Type} (saveOk logOk : ℕ → Bool) (bs : ℕ)
    (st : PoolState Rec) (k : String) (out : WorkerOutcome Rec) (hout : out ≠ .exc)
    (hth : bs ≤ st.processed_in_batch + 1) (hs : saveOk st.saveAttempts = true) :
    (poolStep saveOk logOk bs st k out).savedFile
        = some (poolStep saveOk logOk bs st k out).results
    ∧ (poolStep saveOk logOk bs st k out).processed_in_batch = 0 := by
  cases out with
  | exc => exact absurd rfl hout
  | ok r =>
    rw [show poolStep saveOk logOk bs st k (.ok r)
        = incrAndMaybeSave saveOk bs { st with results := dictInsert k (some r) st.results }
      from rfl]
    rw [incrAndMaybeSave_pos saveOk bs
      { st with results := dictInsert k (some r) st.results } hth hs]
    exact ⟨rfl, rfl⟩
  | fail =>
    rw [show poolStep saveOk logOk bs st k .fail
        = incrAndMaybeSave saveOk bs (logAppend logOk k
            { st with results := dictInsert k none st.results,
                      total_failed := st.total_failed + 1 })
      from rfl]
    rw [incrAndMaybeSave_pos saveOk bs
      (logAppend logOk k
        { st with results := dictInsert k none st.results,
                  total_failed := st.total_failed + 1 })
      (by rw [logAppend_processed_in_batch]; exact hth)
      (by rw [logAppend_saveAttempts]; exact hs)]
    exact ⟨rfl, rfl⟩

theorem poolStep_checkpoint_neg {Rec : Type} (saveOk logOk : ℕ → Bool) (bs : ℕ)
    (st : PoolState Rec) (k : String) (out : WorkerOutcome Rec) (hout : out ≠ .exc)
    (hth : bs ≤ st.processed_in_batch + 1) (hs : saveOk st.saveAttempts = false) :
    (poolStep saveOk logOk bs st k out).processed_in_batch = st.processed_in_batch + 1
    ∧ (poolStep saveOk logOk bs st k out).savedFile = st.savedFile
    ∧ (poolStep saveOk logOk bs st k out).saveAttempts = st.saveAttempts + 1 := by
  cases out with
  | exc => exact absurd rfl hout
  | ok r =>
    rw [show poolStep saveOk logOk bs st k (.ok r)
        = incrAndMaybeSave saveOk bs { st with results := dictInsert k (some r) st.results }
      from rfl]
    rw [incrAndMaybeSave_neg saveOk bs
      { st with results := dictInsert k (some r) st.results } hth hs]
    exact ⟨rfl, rfl, rfl⟩
  | fail =>
    rw [show poolStep saveOk logOk bs st k .fail
        = incrAndMaybeSave saveOk bs (logAppend logOk k
            { st with results := dictInsert k none st.results,
                      total_failed := st.total_failed + 1 })
      from rfl]
    rw [incrAndMaybeSave_neg saveOk bs
      (logAppend logOk k
        { st with results := dictInsert k none st.results,
                  total_failed := st.total_failed + 1 })
      (by rw [logAppend_processed_in_batch]; exact hth)
      (by rw [logAppend_saveAttempts]; exact hs)]
    refine ⟨?_, ?_, ?_⟩
    · show (logAppend logOk k
          { st with results := dictInsert k none st.results,
                    total_failed := st.total_failed + 1 }).processed_in_batch + 1
        = st.processed_in_batch + 1
      rw [logAppend_processed_in_batch]
    · show (logAppend logOk k
          { st with results := dictInsert k none st.results,
                    total_failed := st.total_failed + 1 }).savedFile = st.savedFile
      rw [logAppend_savedFile]
    · show (logAppend logOk k
          { st with results := dictInsert k none st.results,
                    total_failed := st.total_failed + 1 }).saveAttempts + 1
        = st.saveAttempts + 1
      rw [logAppend_saveAttempts]

/-- Claim C3: whenever the completion counter since the last successful
checkpoint reaches `save_batch_size` on a completion, the full result map is
written to the durable results file and the counter resets to zero; if the
write raises `IOError` the counter is not reset — so the checkpoint is
retried at the next completion that is counted — and the run continues
rather than aborting (the failed-save state still accepts the next
completion and then checkpoints successfully). -/
theorem c3_periodic_checkpoint_and_retry {Rec : Type} (saveOk logOk : ℕ → Bool)
    (save_batch_size : ℕ) (st : PoolState Rec) (k k' : String)
    (out out' : WorkerOutcome Rec) (hout : out ≠ .exc) (hout' : out' ≠ .exc)
    (hth : save_batch_size ≤ st.processed_in_batch + 1) :
    (saveOk st.saveAttempts = true →
      (poolStep saveOk logOk save_batch_size st k out).savedFile
          = some (poolStep saveOk logOk save_batch_size st k out).results
        ∧ (poolStep saveOk logOk save_batch_size st k out).processed_in_batch = 0)
    ∧ (saveOk st.saveAttempts = false →
        (poolStep saveOk logOk save_batch_size st k out).processed_in_batch
            = st.processed_in_batch + 1
        ∧ (poolStep saveOk logOk save_batch_size st k out).savedFile = st.savedFile
        ∧ (saveOk (st.saveAttempts + 1) = true →
            (poolStep saveOk logOk save_batch_size
                (poolStep saveOk logOk save_batch_size st k out) k' out').savedFile
              = some (poolStep saveOk logOk save_batch_size
                  (poolStep saveOk logOk save_batch_size st k out) k' out').results
            ∧ (poolStep saveOk logOk save_batch_size
                (poolStep saveOk logOk save_batch_size st k out) k' out').processed_in_batch
              = 0)) := by
  constructor
  · intro hs
    exact poolStep_checkpoint_pos saveOk logOk save_batch_size st k out hout hth hs
  · intro hs
    obtain ⟨h1, h2, h3⟩ :=
      poolStep_checkpoint_neg saveOk logOk save_batch_size st k out hout hth hs
    refine ⟨h1, h2, fun hs' => ?_⟩
    exact poolStep_checkpoint_pos saveOk logOk save_batch_size _ k' out' hout'
      (by rw [h1]; omega) (by rw [h3]; exact hs')

/-- Witness for C3 at concrete inputs: with threshold 2 and a counter at 1,
a completion checkpoints when the write succeeds; when the first write fails
the counter advances to 2 instead and the next completion's write
checkpoints. -/
theorem c3_periodic_checkpoint_and_retry_witness :
    ((WorkerOutcome.ok 5 : WorkerOutcome ℕ) ≠ WorkerOutcome.exc)
    ∧ ((WorkerOutcome.fail : WorkerOutcome ℕ) ≠ WorkerOutcome.exc)
    ∧ (2 ≤ (⟨[], 1, 0, [], none, 0, 0⟩ : PoolState ℕ).processed_in_batch + 1)
    ∧ ((fun n => decide (n = 1)) (⟨[], 1, 0, [], none, 0, 0⟩ : PoolState ℕ).saveAttempts = false)
    ∧ ((poolStep (fun n => decide (n = 1)) (fun _ => true) 2
          (⟨[], 1, 0, [], none, 0, 0⟩ : PoolState ℕ) "100" (WorkerOutcome.ok 5)).processed_in_batch
        = (⟨[], 1, 0, [], none, 0, 0⟩ : PoolState ℕ).processed_in_batch + 1
      ∧ (poolStep (fun n => decide (n = 1)) (fun _ => true) 2
          (⟨[], 1, 0, [], none, 0, 0⟩ : PoolState ℕ) "100" (WorkerOutcome.ok 5)).savedFile
        = (⟨[], 1, 0, [], none, 0, 0⟩ : PoolState ℕ).savedFile
      ∧ ((fun n => decide (n = 1)) ((⟨[], 1, 0, [], none, 0, 0⟩ : PoolState ℕ).saveAttempts + 1)
            = true →
          (poolStep (fun n => decide (n = 1)) (fun _ => true) 2
              (poolStep (fun n => decide (n = 1)) (fun _ => true) 2
                (⟨[], 1, 0, [], none, 0, 0⟩ : PoolState ℕ) "100" (WorkerOutcome.ok 5))
              "200" WorkerOutcome.fail).savedFile
            = some (poolStep (fun n => decide (n = 1)) (fun _ => true) 2
                (poolStep (fun n => decide (n = 1)) (fun _ => true) 2
                  (⟨[], 1, 0, [], none, 0, 0⟩ : PoolState ℕ) "100" (WorkerOutcome.ok 5))
                "200" WorkerOutcome.fail).results
          ∧ (poolStep (fun n => decide (n = 1)) (fun _ => true) 2
              (poolStep (fun n => decide (n = 1)) (fun _ => true) 2
                (⟨[], 1, 0, [], none, 0, 0⟩ : PoolState ℕ) "100" (WorkerOutcome.ok 5))
              "200" WorkerOutcome.fail).processed_in_batch = 0)) := by
  refine ⟨by decide, by decide, by decide, by decide, ?_⟩
  exact (c3_periodic_checkpoint_and_retry (fun n => decide (n = 1)) (fun _ => true) 2
    (⟨[], 1, 0, [], none, 0, 0⟩ : PoolState ℕ) "100" "200" (WorkerOutcome.ok 5)
    WorkerOutcome.fail (by decide) (by decide) (by decide)).2 (by decide)

/-! ## Claim C7 -/

/-- Claim C7: an unexpected exception raised out of a worker future is caught
at the pool boundary; the key is recorded in the result map as a failure
(null), exactly one line `"<key> (exception)"` is appended to the failure log
(provided that append itself does not fail), and every remaining completion
is still processed and recorded — the run does not abort. -/
theorem c7_worker_exception_recorded_and_run_continues {Rec : Type}
    (saveOk logOk : ℕ → Bool) (bs : ℕ) (st : PoolState Rec) (k : String)
    (hlog : logOk st.logAttempts = true) :
    dictLookup k (poolStep saveOk logOk bs st k .exc).results = some none
    ∧ (poolStep saveOk logOk bs st k .exc).failedLog
        = st.failedLog ++ [k ++ " (exception)"]
    ∧ (poolStep saveOk logOk bs st k .exc).total_failed = st.total_failed + 1
    ∧ ∀ (cs : List (String × WorkerOutcome Rec)) (p : String × WorkerOutcome Rec),
        p ∈ cs →
        (dictLookup p.1
          (runPool saveOk logOk bs (poolStep saveOk logOk bs st k .exc) cs).results).isSome
          = true := by
  refine ⟨?_, ?_, ?_, ?_⟩
  · rw [poolStep_results, dictLookup_dictInsert, if_pos rfl]
  · rw [show poolStep saveOk logOk bs st k .exc
        = logAppend logOk (k ++ " (exception)")
            { st with results := dictInsert k none st.results,
                      total_failed := st.total_failed + 1 }
      from rfl]
    rw [logAppend_failedLog_of_ok logOk (k ++ " (exception)")
      { st with results := dictInsert k none st.results,
                total_failed := st.total_failed + 1 } hlog]
  · rw [show poolStep saveOk logOk bs st k .exc
        = logAppend logOk (k ++ " (exception)")
            { st with results := dictInsert k none st.results,
                      total_failed := st.total_failed + 1 }
      from rfl]
    rw [logAppend_total_failed]
  · intro cs p hp
    exact runPool_all_present saveOk logOk bs cs _ p hp

/-- Witness for C7 at concrete inputs: an exception for key `"300"` is
recorded as a null failure with one annotated log line, and a later
completion for `"400"` is still processed. -/
theorem c7_worker_exception_recorded_and_run_continues_witness :
    ((fun _ => true) (⟨[], 0, 0, [], none, 0, 0⟩ : PoolState ℕ).logAttempts = true)
    ∧ dictLookup "300"
        (poolStep (fun _ => true) (fun _ => true) 50
          (⟨[], 0, 0, [], none, 0, 0⟩ : PoolState ℕ) "300" .exc).results = some none
    ∧ (poolStep (fun _ => true) (fun _ => true) 50
        (⟨[], 0, 0, [], none, 0, 0⟩ : PoolState ℕ) "300" .exc).failedLog
        = ([] : List String) ++ ["300" ++ " (exception)"]
    ∧ (dictLookup ("400", (WorkerOutcome.ok 9 : WorkerOutcome ℕ)).1
        (runPool (fun _ => true) (fun _ => true) 50
          (poolStep (fun _ => true) (fun _ => true) 50
            (⟨[], 0, 0, [], none, 0, 0⟩ : PoolState ℕ) "300" .exc)
          [("400", WorkerOutcome.ok 9)]).results).isSome = true := by
  have h := c7_worker_exception_recorded_and_run_continues (fun _ => true) (fun _ => true)
    50 (⟨[], 0, 0, [], none, 0, 0⟩ : PoolState ℕ) "300" (by decide)
  exact ⟨by decide, h.1, h.2.1, h.2.2.2 [("400", WorkerOutcome.ok 9)]
    ("400", WorkerOutcome.ok 9) (by decide)⟩

/-! ## Claim C8 -/

/-- Claim C8: loading the persistent cache (`_init_cache`) or the result
store (`process_zipcodes`) from a corrupt or unreadable durable file never
fails the program: the in-memory mapping starts empty and execution proceeds
exactly as it does with an empty store (the error is only logged). -/
theorem c8_corrupt_or_unreadable_load_is_empty_and_nonfatal {α Rec : Type}
    (saveOk logOk : ℕ → Bool) (worker : String → WorkerOutcome Rec)
    (zipcodes : List String) (bs : ℕ) (ord : List String) :
    _init_cache (FileState.corrupt : FileState α) = []
    ∧ _init_cache (FileState.unreadable : FileState α) = []
    ∧ loadExistingResults (FileState.corrupt : FileState α) = []
    ∧ loadExistingResults (FileState.unreadable : FileState α) = []
    ∧ process_zipcodes saveOk logOk worker FileState.corrupt zipcodes bs ord
        = process_zipcodes saveOk logOk worker (FileState.good []) zipcodes bs ord
    ∧ process_zipcodes saveOk logOk worker FileState.unreadable zipcodes bs ord
        = process_zipcodes saveOk logOk worker (FileState.good []) zipcodes bs ord :=
  ⟨rfl, rfl, rfl, rfl, rfl, rfl⟩

/-! ## Pagination lemmas and claim C4 -/

theorem searchLoop_some {α : Type} (resp : ℕ → PageResp α) :
    ∀ fuel p L, L ≤ p + fuel →
      searchLoop resp fuel p (some L)
        = ⟨⟨((List.range' p (L - p)).map (fun q => (resp q).listResults)).flatten,
            ((List.range' p (L - p)).map (fun q => (resp q).mapResults)).flatten⟩,
          List.range' p (L - p), List.replicate (L - p) (1 / 2 : ℚ)⟩ := by
  intro fuel
  induction fuel with
  | zero =>
    intro p L h
    have hz : L - p = 0 := by omega
    rw [hz]
    simp [searchLoop]
  | succ fuel ih =>
    intro p L h
    by_cases hp : p < L
    · obtain ⟨m, hm⟩ : ∃ m, L - p = m + 1 := ⟨L - p - 1, by omega⟩
      have hm2 : L - (p + 1) = m := by omega
      have hrec := ih (p + 1) L (by omega)
      rw [hm2] at hrec
      simp only [searchLoop, hp, decide_True, if_true, hrec, hm]
      simp [List.range'_succ, List.replicate_succ]
    · have hz : L - p = 0 := by omega
      have hd : decide (p < L) = false := decide_eq_false hp
      simp only [searchLoop, hd, hz]
      simp

/-- Claim C4 as stated is false on the code: pagination stops as soon as the
internal page counter reaches the server-reported `totalPages`, so the final
page is never requested and its records are missing from the result.
Concretely, with every page reporting `totalPages = 2`, only page 1 is
fetched: the fetched pages are `[1]` rather than `[1, 2]`, and the
concatenated `listResults` are `[1]` rather than the two pages' `[1, 2]`. -/
theorem c4_counterexample :
    (search_properties twoPageResp).fetchedPages = [1]
    ∧ ¬((search_properties twoPageResp).fetchedPages
        = List.range' 1 ((twoPageResp 1).totalPages))
    ∧ (search_properties twoPageResp).results.listResults = [1]
    ∧ ¬((search_properties twoPageResp).results.listResults
        = ((List.range' 1 ((twoPageResp 1).totalPages)).map
            (fun p => (twoPageResp p).listResults)).flatten) := by
  refine ⟨by decide, by decide, by decide, by decide⟩

/-- Claim C4 amended: `search_properties` fetches page 1, then pages
`2, …, T - 1` where `T` is the totalPages value reported by the first
response, stopping as soon as the page counter reaches `T` — so page `T`
itself is never requested (when `T ≤ 2` only page 1 is fetched).  It sleeps a
fixed 0.5 s after each page request (hence between any two consecutive page
requests), and the returned result holds the `listResults` and `mapResults`
sequences concatenated in order across the fetched pages. -/
theorem c4_amended_pagination {α : Type} (resp : ℕ → PageResp α) :
    (search_properties resp).fetchedPages
        = 1 :: List.range' 2 ((resp 1).totalPages - 2)
    ∧ (search_properties resp).results.listResults
        = ((search_properties resp).fetchedPages.map (fun p => (resp p).listResults)).flatten
    ∧ (search_properties resp).results.mapResults
        = ((search_properties resp).fetchedPages.map (fun p => (resp p).mapResults)).flatten
    ∧ (search_properties resp).sleeps
        = List.replicate (search_properties resp).fetchedPages.length (1 / 2 : ℚ) := by
  have hstep : search_properties resp
      = ⟨⟨(resp 1).listResults
            ++ (searchLoop resp (resp 1).totalPages 2 (some (resp 1).totalPages)).results.listResults,
          (resp 1).mapResults
            ++ (searchLoop resp (resp 1).totalPages 2 (some (resp 1).totalPages)).results.mapResults⟩,
        1 :: (searchLoop resp (resp 1).totalPages 2 (some (resp 1).totalPages)).fetchedPages,
        (1 / 2 : ℚ) :: (searchLoop resp (resp 1).totalPages 2 (some (resp 1).totalPages)).sleeps⟩ := by
    rw [show search_properties resp
        = searchLoop resp ((resp 1).totalPages + 1) 1 none from rfl]
    simp [searchLoop]
  rw [hstep, searchLoop_some resp (resp 1).totalPages 2 (resp 1).totalPages (by omega)]
  refine ⟨rfl, ?_, ?_, ?_⟩
  · simp
  · simp
  · simp [List.length_range', List.replicate_succ]

/-! ## Claim C9 -/

/-- Claim C9: `_get_nested_value` traverses the split dot-path; it returns
the supplied default whenever a traversal step meets a missing key, a `None`
value, an empty-dict value, or a non-dict intermediate value — so a key
present with value `None` or `{}` is indistinguishable from an absent key —
while any other present value (including falsy ones such as `0` or `""`)
lets the traversal continue and, at the final step, is returned as-is. -/
theorem c9_get_nested_value_default_semantics (d : JValue) (key_path : String)
    (default v : JValue) (key : String) (rest : List String)
    (entries : List (String × JValue)) (current : JValue) :
    _get_nested_value d key_path default = getNestedGo default (pySplitDot key_path) d
    ∧ (dictLookup key entries = none →
        getNestedGo default (key :: rest) (.obj entries) = default)
    ∧ (dictLookup key entries = some .null →
        getNestedGo default (key :: rest) (.obj entries) = default)
    ∧ (dictLookup key entries = some (.obj []) →
        getNestedGo default (key :: rest) (.obj entries) = default)
    ∧ (isObj current = false → getNestedGo default (key :: rest) current = default)
    ∧ (dictLookup key entries = some v → isNull v = false → isEmptyObj v = false →
        getNestedGo default (key :: rest) (.obj entries) = getNestedGo default rest v)
    ∧ (dictLookup key entries = some v → isNull v = false → isEmptyObj v = false →
        getNestedGo default [key] (.obj entries) = v) := by
  refine ⟨rfl, ?_, ?_, ?_, ?_, ?_, ?_⟩
  · intro h
    simp [getNestedGo, h, isEmptyObj]
  · intro h
    simp [getNestedGo, h, isNull]
  · intro h
    simp [getNestedGo, h, isEmptyObj]
  · intro h
    cases current <;> simp_all [getNestedGo, isObj]
  · intro h h1 h2
    simp [getNestedGo, h, h1, h2]
  · intro h h1 h2
    simp [getNestedGo, h, h1, h2]

/-- Witness for C9 at concrete inputs: a present `0` is returned as-is, a
missing key and a present `None` both give the default, and a non-dict
intermediate value gives the default. -/
theorem c9_get_nested_value_default_semantics_witness :
    dictLookup "a" [("a", JValue.num 0)] = some (JValue.num 0)
    ∧ isNull (JValue.num 0) = false
    ∧ isEmptyObj (JValue.num 0) = false
    ∧ getNestedGo (JValue.str "dflt") ["a"] (JValue.obj [("a", JValue.num 0)]) = JValue.num 0
    ∧ dictLookup "b" [("a", JValue.num 0)] = none
    ∧ getNestedGo (JValue.str "dflt") ["b"] (JValue.obj [("a", JValue.num 0)])
        = JValue.str "dflt"
    ∧ dictLookup "n" [("n", JValue.null)] = some JValue.null
    ∧ getNestedGo (JValue.str "dflt") ["n", "x"] (JValue.obj [("n", JValue.null)])
        = JValue.str "dflt"
    ∧ isObj (JValue.num 7) = false
    ∧ getNestedGo (JValue.str "dflt") ["x"] (JValue.num 7) = JValue.str "dflt" := by
  refine ⟨rfl, rfl, rfl, ?_, rfl, ?_, rfl, ?_, rfl, ?_⟩
  · exact (c9_get_nested_value_default_semantics (JValue.obj []) "" (JValue.str "dflt")
      (JValue.num 0) "a" [] [("a", JValue.num 0)] (JValue.num 7)).2.2.2.2.2.2 rfl rfl rfl
  · exact (c9_get_nested_value_default_semantics (JValue.obj []) "" (JValue.str "dflt")
      (JValue.num 0) "b" [] [("a", JValue.num 0)] (JValue.num 7)).2.1 rfl
  · exact (c9_get_nested_value_default_semantics (JValue.obj []) "" (JValue.str "dflt")
      (JValue.num 0) "n" ["x"] [("n", JValue.null)] (JValue.num 7)).2.2.1 rfl
  · exact (c9_get_nested_value_default_semantics (JValue.obj []) "" (JValue.str "dflt")
      (JValue.num 0) "x" [] [("n", JValue.null)] (JValue.num 7)).2.2.2.2.1 rfl

/-! ## Claim C10 -/

/-- Claim C10: `get_property_details_by_zpid` inserts into the persistent
cache only when the fetched details dictionary is non-empty: when the fetch
parses to an empty dictionary, the cache mapping and its dirty flag are left
unchanged (the whole cache state is returned as it was), so the empty result
is never cached and a subsequent call for the same zpid performs the fetch
again. -/
theorem c10_empty_details_never_cached {β : Type} (fetch : String → List (String × β))
    (st : CacheState β) (zpid : String)
    (hmiss : dictLookup zpid st.cache = none) (hempty : fetch zpid = []) :
    get_property_details_by_zpid fetch st zpid = ([], st, true)
    ∧ get_property_details_by_zpid fetch
        (get_property_details_by_zpid fetch st zpid).2.1 zpid = ([], st, true) := by
  have h1 : get_property_details_by_zpid fetch st zpid = ([], st, true) := by
    simp [get_property_details_by_zpid, _cache_get, hmiss, hempty]
  exact ⟨h1, by rw [h1]; exact h1⟩

/-- Witness for C10 at concrete inputs: a fetch returning `{}` for a
cache-miss zpid leaves the empty, clean cache state unchanged and is fetched
again on the next call. -/
theorem c10_empty_details_never_cached_witness :
    dictLookup "123" (⟨[], false⟩ : CacheState ℕ).cache = none
    ∧ (fun _ => ([] : List (String × ℕ))) "123" = []
    ∧ get_property_details_by_zpid (fun _ => ([] : List (String × ℕ)))
        (⟨[], false⟩ : CacheState ℕ) "123" = ([], ⟨[], false⟩, true)
    ∧ get_property_details_by_zpid (fun _ => ([] : List (String × ℕ)))
        (get_property_details_by_zpid (fun _ => ([] : List (String × ℕ)))
          (⟨[], false⟩ : CacheState ℕ) "123").2.1 "123" = ([], ⟨[], false⟩, true) := by
  have h := c10_empty_details_never_cached (fun _ => ([] : List (String × ℕ)))
    (⟨[], false⟩ : CacheState ℕ) "123" rfl rfl
  exact ⟨rfl, rfl, h.1, h.2⟩
